import Mathlib

/-
Shallow embedding of `localstack/services/events/provider_v2.py`.

The provider keeps a plain Python `dict[str, EventBus]` keyed by the string
`f"{name}-{region}"`.  We model that dictionary as an association list
`List (String × EventBus)` whose reachable states never hold duplicate keys:
assignment (`d[k] = v`) is modelled by erasing any old binding and prepending
the new one (Python keeps the entry's position, but only lookup semantics are
observable to the claims), and `dict.pop(k)` / `del d[k]` by erasing the key.

Exceptions raised by the operations are modelled by `Except` with an error
type mirroring the exception classes the code actually raises, including the
untyped Python `KeyError` that `dict.pop(key)` (no default) raises on a
missing key.
-/

/-- State enum mirroring `RuleState` (values used: ENABLED, DISABLED). -/
inductive RuleState where
  | ENABLED
  | DISABLED
deriving DecidableEq, Repr

/-- Errors the provider's operations can surface.
`internalException code message` models `raise InternalException(code, message)`;
`resourceNotFoundException message` models `raise ResourceNotFoundException(message)`;
`keyError key` models the Python `KeyError` that `dict.pop(key)` raises when
`key` is absent and no default argument was given. -/
inductive EventsError where
  | internalException (code message : String)
  | resourceNotFoundException (message : String)
  | keyError (key : String)
deriving DecidableEq, Repr

/-- Mirrors `class Rule`: name plus state/description/role_arn, with the
constructor defaulting `state` to `RuleState.ENABLED` and the two optional
fields to `None`. -/
structure Rule where
  name : String
  state : RuleState := RuleState.ENABLED
  description : Option String := none
  role_arn : Option String := none
deriving DecidableEq, Repr

/-- Mirrors `Rule.enable`: sets `state` to ENABLED, touching nothing else. -/
def Rule.enable (r : Rule) : Rule := { r with state := RuleState.ENABLED }

/-- Mirrors `Rule.disable`: sets `state` to DISABLED, touching nothing else. -/
def Rule.disable (r : Rule) : Rule := { r with state := RuleState.DISABLED }

/-- Mirrors `class EventBus`: a name, an arn, and the `_rules` dict
(`RuleDict = dict[str, Rule]`), empty at construction. -/
structure EventBus where
  name : String
  arn : String
  rules : List (String × Rule) := []
deriving DecidableEq, Repr

/-- Mirrors `EventBus.delete`: `self._rules.clear()`. -/
def EventBus.delete (b : EventBus) : EventBus := { b with rules := [] }

/-- Removal of every binding of `k`, modelling `dict.pop(k)` discarding the
entry (reachable dictionaries hold `k` at most once). -/
def dictErase (k : String) (d : List (String × EventBus)) : List (String × EventBus) :=
  d.filter (fun p => !(p.1 == k))

/-- Python dict assignment `d[k] = v`: afterwards `k` maps to `v` and every
other key maps as before. -/
def dictInsert (k : String) (v : EventBus) (d : List (String × EventBus)) :
    List (String × EventBus) :=
  (k, v) :: dictErase k d

/-- Mirrors `EventsProvider._get_event_bus_key`: `f"{name}-{region}"`. -/
def get_event_bus_key (name region : String) : String :=
  name ++ "-" ++ region

/-- Mirrors `EventsProvider._get_event_bus_arn`:
`f"arn:aws:events:{region}:{account_id}:event-bus/{name}"`. -/
def get_event_bus_arn (name region account_id : String) : String :=
  "arn:aws:events:" ++ region ++ ":" ++ account_id ++ ":event-bus/" ++ name

/-- Mirrors `EventsProvider`: the `_event_buses` dict (`EventBusDict`).
The `_events_workers` dict is created empty and never used, so it is omitted. -/
structure EventsProvider where
  event_buses : List (String × EventBus)
deriving DecidableEq, Repr

/-- Mirrors `EventsProvider.__init__` together with `_add_default_event_bus`:
the fresh provider's dict holds exactly one entry, stored under the literal
key `"default"` (not under `_get_event_bus_key("default", "us-east-1")`),
whose bus has name `"default"` and the arn built from the default region
`us-east-1` and default account `000000000000`. -/
def EventsProvider.init : EventsProvider :=
  { event_buses :=
      [("default",
        { name := "default"
          arn := get_event_bus_arn "default" "us-east-1" "000000000000" })] }

/-- Mirrors `EventsProvider.create_event_bus`: builds the arn from
`(name, context.region, context.account_id)`, inserts a fresh bus under the
composite key, unconditionally overwriting any previous entry, and returns
the arn (the `CreateEventBusResponse`). -/
def EventsProvider.create_event_bus (st : EventsProvider)
    (name region account_id : String) : String × EventsProvider :=
  let event_bus_arn := get_event_bus_arn name region account_id
  let event_bus : EventBus := { name := name, arn := event_bus_arn }
  let event_bus_key := get_event_bus_key name region
  (event_bus_arn, { st with event_buses := dictInsert event_bus_key event_bus st.event_buses })

/-- Mirrors `EventsProvider.delete_event_bus`.  The source reads

    if name == "default":
        raise InternalException("ValidationException", "Cannot delete event bus default.")
    event_bus_key = self._get_event_bus_key(name, context.region)
    if event_bus := self._event_buses.pop(event_bus_key):
        event_bus.delete()
    else:
        raise ResourceNotFoundException(...)

`dict.pop(key)` with no default raises `KeyError` when the key is absent, and
an `EventBus` instance is always truthy, so the `else` branch (the
`ResourceNotFoundException`) is unreachable: a present key is popped and its
bus's rules cleared, an absent key surfaces the bare `KeyError`. -/
def EventsProvider.delete_event_bus (st : EventsProvider) (name region : String) :
    Except EventsError EventsProvider :=
  if name = "default" then
    Except.error (EventsError.internalException "ValidationException"
      "Cannot delete event bus default.")
  else
    let event_bus_key := get_event_bus_key name region
    match st.event_buses.lookup event_bus_key with
    | some _ =>
        Except.ok { st with event_buses := dictErase event_bus_key st.event_buses }
    | none =>
        Except.error (EventsError.keyError event_bus_key)

/-- Mirrors `EventsProvider._get_event_bus`: computes the composite key, and
raises `ResourceNotFoundException(f"EventBus {name} for region {region} does
not exist")` when absent, otherwise returns the bus. -/
def EventsProvider.get_event_bus (st : EventsProvider) (name region : String) :
    Except EventsError EventBus :=
  let event_bus_key := get_event_bus_key name region
  match st.event_buses.lookup event_bus_key with
  | some event_bus => Except.ok event_bus
  | none =>
      Except.error (EventsError.resourceNotFoundException
        ("EventBus " ++ name ++ " for region " ++ region ++ " does not exist"))

/-- Python `s.split(sep)` for a one-character separator, on the character
list: non-collapsing, so `"".split` is `[""]`, `"a//b".split` is
`["a","","b"]`, and a trailing separator yields a final empty segment. -/
def pySplit (c : Char) : List Char → List (List Char)
  | [] => [[]]
  | x :: xs =>
    match pySplit c xs with
    | [] => [[]]
    | h :: t => if x = c then [] :: h :: t else (x :: h) :: t

/-- Mirrors `EventsProvider._extract_event_bus_name`: `None` or `""` yield
`"default"`; otherwise the result is `value.split("/")[-1]`, the last
segment of the split. -/
def extract_event_bus_name (event_bus_name_or_arn : Option String) : String :=
  match event_bus_name_or_arn with
  | none => "default"
  | some s =>
    if s = "" then "default"
    else String.mk ((pySplit '/' s.data).getLastD [])

/-- Folding `create_event_bus` over a list of `(name, region, account_id)`
triples, as a sequence of CreateEventBus calls. -/
def create_all (st : EventsProvider) (ps : List (String × String × String)) :
    EventsProvider :=
  ps.foldl (fun s p => (s.create_event_bus p.1 p.2.1 p.2.2).2) st

/-- Spec-side reading of "the substring after the last '/'": `r` contains no
slash, and either `s` itself has none and `r = s`, or `s` decomposes as some
prefix, a slash, then exactly `r`. -/
def suffixAfterLastSlash (s r : String) : Prop :=
  '/' ∉ r.data ∧ (r = s ∨ ∃ pre : List Char, s.data = pre ++ '/' :: r.data)

instance {ε α : Type} [DecidableEq ε] [DecidableEq α] :
    DecidableEq (Except ε α) := fun a b =>
  match a, b with
  | Except.error e₁, Except.error e₂ =>
    if h : e₁ = e₂ then isTrue (by rw [h]) else isFalse (by simp [h])
  | Except.error _, Except.ok _ => isFalse (by simp)
  | Except.ok _, Except.error _ => isFalse (by simp)
  | Except.ok a₁, Except.ok a₂ =>
    if h : a₁ = a₂ then isTrue (by rw [h]) else isFalse (by simp [h])

section DictLemmas

theorem lookup_dictErase_self (k : String) (d : List (String × EventBus)) :
    (dictErase k d).lookup k = none := by
  induction d with
  | nil => rfl
  | cons p d ih =>
    obtain ⟨a, b⟩ := p
    by_cases hak : a = k
    · have hb : (a == k) = true := by simpa using hak
      simpa [dictErase, List.filter_cons, hb] using ih
    · have hb : (a == k) = false := by simpa using hak
      have hb' : (k == a) = false := by simpa using Ne.symm hak
      simp only [dictErase, List.filter_cons, hb, Bool.not_false, if_pos] at ih ⊢
      simpa [List.lookup, hb'] using ih

theorem lookup_dictErase_ne (k k' : String) (hne : k' ≠ k)
    (d : List (String × EventBus)) :
    (dictErase k d).lookup k' = d.lookup k' := by
  induction d with
  | nil => rfl
  | cons p d ih =>
    obtain ⟨a, b⟩ := p
    by_cases hak : a = k
    · have hb : (a == k) = true := by simpa using hak
      have hb' : (k' == a) = false := by
        simpa using fun h => hne (h.trans hak)
      simp only [dictErase, List.filter_cons, hb, Bool.not_true, if_neg] at ih ⊢
      simpa [List.lookup, hb'] using ih
    · have hb : (a == k) = false := by simpa using hak
      simp only [dictErase, List.filter_cons, hb, Bool.not_false, if_pos] at ih ⊢
      simp only [List.lookup]
      cases hka : (k' == a) with
      | true => rfl
      | false => simpa [dictErase] using ih

theorem lookup_dictInsert_self (k : String) (v : EventBus)
    (d : List (String × EventBus)) :
    (dictInsert k v d).lookup k = some v := by
  simp [dictInsert, List.lookup]

theorem lookup_dictInsert_ne (k k' : String) (hne : k' ≠ k) (v : EventBus)
    (d : List (String × EventBus)) :
    (dictInsert k v d).lookup k' = d.lookup k' := by
  have hb : (k' == k) = false := by simpa using hne
  simp only [dictInsert, List.lookup, hb]
  exact lookup_dictErase_ne k k' hne d

theorem get_event_bus_key_region_inj (n r1 r2 : String)
    (h : get_event_bus_key n r1 = get_event_bus_key n r2) : r1 = r2 := by
  have hd : (n ++ "-" ++ r1).data = (n ++ "-" ++ r2).data := by
    simpa [get_event_bus_key] using congrArg String.data h
  simp only [String.data_append] at hd
  have := List.append_cancel_left hd
  exact congrArg String.mk this

end DictLemmas

theorem pySplit_ne_nil (c : Char) (l : List Char) : pySplit c l ≠ [] := by
  cases l with
  | nil => simp [pySplit]
  | cons x xs =>
    simp only [pySplit]
    cases hps : pySplit c xs with
    | nil => simp
    | cons h t => by_cases hx : x = c <;> simp [hx]

theorem pySplit_length (c : Char) (l : List Char) :
    (pySplit c l).length = l.count c + 1 := by
  induction l with
  | nil => simp [pySplit]
  | cons x xs ih =>
    simp only [pySplit, List.count_cons]
    cases hps : pySplit c xs with
    | nil => exact absurd hps (pySplit_ne_nil c xs)
    | cons h t =>
      rw [hps] at ih
      by_cases hx : x = c
      · have hbx : (x == c) = true := by simpa using hx
        simp [if_pos hx, hbx, List.length_cons] at ih ⊢
        omega
      · have hbx : (x == c) = false := by simpa using hx
        simp only [if_neg hx, hbx, List.length_cons] at ih ⊢
        simpa using ih

/-- Structural description of the last segment of a Python split: it holds
no separator, and it is either the whole list (no separator anywhere) or the
exact tail after some occurrence of the separator — necessarily the last
one, since the segment itself is separator-free. -/
theorem pySplit_getLastD_after_last (c : Char) (l : List Char) :
    c ∉ (pySplit c l).getLastD [] ∧
    ((pySplit c l).getLastD [] = l ∨
      ∃ pre : List Char, l = pre ++ c :: (pySplit c l).getLastD []) := by
  induction l with
  | nil =>
    refine ⟨by simp [pySplit], Or.inl ?_⟩
    simp [pySplit]
  | cons x xs ih =>
    cases hps : pySplit c xs with
    | nil => exact absurd hps (pySplit_ne_nil c xs)
    | cons h t =>
      rw [hps] at ih
      by_cases hx : x = c
      · have hrw : pySplit c (x :: xs) = [] :: h :: t := by
          simp [pySplit, hps, hx]
        rw [hrw]
        have hgl : (([] : List Char) :: h :: t).getLastD [] = (h :: t).getLastD [] := by
          rw [List.getLastD_cons, List.getLastD_cons]
        rw [hgl]
        obtain ⟨ihm, ihd⟩ := ih
        refine ⟨ihm, Or.inr ?_⟩
        rcases ihd with heq | ⟨pre, hpre⟩
        · exact ⟨[], by rw [heq, hx]; rfl⟩
        · exact ⟨x :: pre, by rw [hpre]; rfl⟩
      · have hrw : pySplit c (x :: xs) = (x :: h) :: t := by
          simp [pySplit, hps, hx]
        rw [hrw]
        obtain ⟨ihm, ihd⟩ := ih
        cases t with
        | nil =>
          have hnotin : c ∉ xs := by
            rw [← List.count_eq_zero]
            have hlen := pySplit_length c xs
            rw [hps] at hlen
            simpa using hlen.symm
          have hseg : ([h] : List (List Char)).getLastD [] = h := by
            rw [List.getLastD_cons]
            rfl
          rw [hseg] at ihm ihd
          have hgl : ([x :: h] : List (List Char)).getLastD [] = x :: h := by
            rw [List.getLastD_cons]
            rfl
          rw [hgl]
          rcases ihd with heq | ⟨pre, hpre⟩
          · refine ⟨?_, Or.inl (by rw [heq])⟩
            intro hc
            rcases List.mem_cons.mp hc with hcx | hch
            · exact hx hcx.symm
            · exact ihm hch
          · exact absurd (by rw [hpre]; simp) hnotin
        | cons y t' =>
          have hin : c ∈ xs := by
            rw [← List.count_pos_iff]
            have hlen := pySplit_length c xs
            rw [hps] at hlen
            simp only [List.length_cons] at hlen
            omega
          have hgl : ((x :: h) :: y :: t').getLastD ([] : List Char) =
              (h :: y :: t').getLastD [] := by
            rw [List.getLastD_cons, List.getLastD_cons, List.getLastD_cons,
              List.getLastD_cons]
          rw [hgl]
          refine ⟨ihm, Or.inr ?_⟩
          rcases ihd with heq | ⟨pre, hpre⟩
          · exact absurd hin (heq ▸ ihm)
          · exact ⟨x :: pre, by rw [hpre]; rfl⟩

/-- Shared fact used by several claims: for any provider state and any
region, deleting the bus named "default" fails with the
`InternalException("ValidationException", ...)` raise, before any key
computation or dictionary access. -/
theorem delete_default_eq_validation (st : EventsProvider) (r : String) :
    st.delete_event_bus "default" r =
      Except.error (EventsError.internalException "ValidationException"
        "Cannot delete event bus default.") := by
  simp [EventsProvider.delete_event_bus]

/-- Claim C1: for every region and every registry state,
`DeleteEventBus("default", region)` fails with the validation failure
(`InternalException("ValidationException", "Cannot delete event bus
default.")`) and never with a not-found failure; the name check precedes any
key computation or lookup, so the state is irrelevant to the outcome. -/
theorem delete_default_always_validation_failure (st : EventsProvider) (r : String) :
    st.delete_event_bus "default" r =
      Except.error (EventsError.internalException "ValidationException"
        "Cannot delete event bus default.") ∧
    ∀ msg : String,
      st.delete_event_bus "default" r ≠
        Except.error (EventsError.resourceNotFoundException msg) := by
  refine ⟨delete_default_eq_validation st r, ?_⟩
  intro msg hmsg
  rw [delete_default_eq_validation st r] at hmsg
  exact absurd (Except.error.inj hmsg) (by simp)

/-- Claim C2 (divergence exhibited): on a freshly constructed provider,
deleting the absent bus `("my-bus", "us-east-1")` surfaces the bare Python
`KeyError` from `dict.pop`, not the typed `ResourceNotFoundException` the
dead `else` branch would raise. -/
theorem delete_missing_bus_raises_keyerror :
    EventsProvider.init.delete_event_bus "my-bus" "us-east-1" =
      Except.error (EventsError.keyError "my-bus-us-east-1") := by
  decide

/-- Claim C3 (divergence exhibited): immediately after construction the
lookup of `("default", "us-east-1")` fails with `ResourceNotFoundException`,
because the seed entry sits under the literal key `"default"` while the
lookup computes the composite key `"default-us-east-1"`; the seeded bus does
exist, under key `"default"`, with the arn the claim names. -/
theorem default_bus_not_lookupable_after_construction :
    EventsProvider.init.get_event_bus "default" "us-east-1" =
      Except.error (EventsError.resourceNotFoundException
        "EventBus default for region us-east-1 does not exist") ∧
    EventsProvider.init.event_buses.lookup "default" =
      some { name := "default"
             arn := "arn:aws:events:us-east-1:000000000000:event-bus/default" } := by
  constructor
  · decide
  · decide

/-- Claim C4: after `CreateEventBus(n, r, a)` with `n ≠ "default"`, looking
up bus `(n, r)` succeeds, the bus's arn is exactly the arn the create call
returned, and that arn is `arn:aws:events:{r}:{a}:event-bus/{n}`. -/
theorem create_then_lookup_roundtrip (st : EventsProvider) (n r a : String)
    (hn : n ≠ "default") :
    ((st.create_event_bus n r a).2).get_event_bus n r =
      Except.ok { name := n, arn := (st.create_event_bus n r a).1 } ∧
    (st.create_event_bus n r a).1 =
      "arn:aws:events:" ++ r ++ ":" ++ a ++ ":event-bus/" ++ n := by
  constructor
  · simp only [EventsProvider.create_event_bus, EventsProvider.get_event_bus]
    rw [lookup_dictInsert_self]
  · rfl

/-- Witness for C4 at a concrete input. -/
theorem create_then_lookup_roundtrip_witness :
    ("my-bus" : String) ≠ "default" ∧
    (((EventsProvider.init.create_event_bus "my-bus" "us-east-1" "111111111111").2).get_event_bus
        "my-bus" "us-east-1" =
      Except.ok { name := "my-bus"
                  arn := (EventsProvider.init.create_event_bus "my-bus" "us-east-1" "111111111111").1 } ∧
    (EventsProvider.init.create_event_bus "my-bus" "us-east-1" "111111111111").1 =
      "arn:aws:events:" ++ "us-east-1" ++ ":" ++ "111111111111" ++ ":event-bus/" ++ "my-bus") :=
  ⟨by decide,
   create_then_lookup_roundtrip EventsProvider.init "my-bus" "us-east-1" "111111111111"
     (by decide)⟩

/-- Claim C6: for a created non-default bus `(n, r)`, DeleteEventBus
succeeds, a subsequent lookup of `(n, r)` fails with the typed not-found
failure naming the bus and region, and `EventBus.delete` clears the deleted
bus's whole rule mapping. -/
theorem delete_then_lookup_not_found (st : EventsProvider) (n r a : String)
    (hn : n ≠ "default") :
    ∃ st2 : EventsProvider,
      ((st.create_event_bus n r a).2).delete_event_bus n r = Except.ok st2 ∧
      st2.get_event_bus n r =
        Except.error (EventsError.resourceNotFoundException
          ("EventBus " ++ n ++ " for region " ++ r ++ " does not exist")) ∧
      ∀ b : EventBus, b.delete.rules = [] := by
  refine ⟨EventsProvider.mk (dictErase (get_event_bus_key n r)
      (dictInsert (get_event_bus_key n r)
        { name := n, arn := get_event_bus_arn n r a } st.event_buses)), ?_, ?_, ?_⟩
  · simp only [EventsProvider.create_event_bus, EventsProvider.delete_event_bus, if_neg hn]
    rw [lookup_dictInsert_self]
  · simp only [EventsProvider.get_event_bus]
    rw [lookup_dictErase_self]
  · intro b
    rfl

/-- Witness for C6 at a concrete input. -/
theorem delete_then_lookup_not_found_witness :
    ("my-bus" : String) ≠ "default" ∧
    (∃ st2 : EventsProvider,
      ((EventsProvider.init.create_event_bus "my-bus" "us-east-1" "111111111111").2).delete_event_bus
          "my-bus" "us-east-1" = Except.ok st2 ∧
      st2.get_event_bus "my-bus" "us-east-1" =
        Except.error (EventsError.resourceNotFoundException
          ("EventBus " ++ "my-bus" ++ " for region " ++ "us-east-1" ++ " does not exist")) ∧
      ∀ b : EventBus, b.delete.rules = []) :=
  ⟨by decide,
   delete_then_lookup_not_found EventsProvider.init "my-bus" "us-east-1" "111111111111"
     (by decide)⟩

/-- Claim C8: creating bus `n` in region `r1` leaves the lookup of `(n, r2)`
for any other region `r2` exactly as it was before the create. -/
theorem create_other_region_frame (st : EventsProvider) (n r1 r2 a : String)
    (h : r1 ≠ r2) :
    ((st.create_event_bus n r1 a).2).get_event_bus n r2 = st.get_event_bus n r2 := by
  have hk : get_event_bus_key n r2 ≠ get_event_bus_key n r1 := fun he =>
    h ((get_event_bus_key_region_inj n r2 r1 he).symm)
  simp only [EventsProvider.create_event_bus, EventsProvider.get_event_bus]
  rw [lookup_dictInsert_ne _ _ hk]

/-- Witness for C8 at a concrete input. -/
theorem create_other_region_frame_witness :
    ("us-east-1" : String) ≠ "eu-west-1" ∧
    ((EventsProvider.init.create_event_bus "my-bus" "us-east-1" "111111111111").2).get_event_bus
        "my-bus" "eu-west-1" =
      EventsProvider.init.get_event_bus "my-bus" "eu-west-1" :=
  ⟨by decide,
   create_other_region_frame EventsProvider.init "my-bus" "us-east-1" "eu-west-1"
     "111111111111" (by decide)⟩

/-- Claim C10 (counterexample to the claim as stated): create the bus
`("default", "x-y")`; then `DeleteEventBus("default-x", "y")` — a different
name, so the validation guard does not fire — computes the same composite
key `"default-x-y"` and removes that bus, after which its lookup fails.  So
a create-time "default" bus does not remain present in every reachable
later state. -/
theorem created_default_bus_removable_counterexample :
    ((EventsProvider.init.create_event_bus "default" "x-y" "000000000000").2).delete_event_bus
        "default-x" "y" =
      Except.ok { event_buses := [("default",
        { name := "default"
          arn := "arn:aws:events:us-east-1:000000000000:event-bus/default" })] } ∧
    (EventsProvider.mk [("default",
        { name := "default"
          arn := "arn:aws:events:us-east-1:000000000000:event-bus/default" })]).get_event_bus
        "default" "x-y" =
      Except.error (EventsError.resourceNotFoundException
        "EventBus default for region x-y does not exist") := by
  constructor
  · decide
  · decide

/-- Claim C10 as amended: after `CreateEventBus("default", r, a)` the bus is
present and lookupable, and every `DeleteEventBus("default", r')` fails with
the validation failure before any key computation or map access — no
default-named delete can ever remove it.  (It can still be removed by a
delete whose name differs but whose composite key collides, as the
counterexample shows.) -/
theorem created_default_bus_immune_to_default_deletes (st : EventsProvider)
    (r a r' : String) :
    ((st.create_event_bus "default" r a).2).get_event_bus "default" r =
      Except.ok { name := "default", arn := get_event_bus_arn "default" r a } ∧
    ((st.create_event_bus "default" r a).2).delete_event_bus "default" r' =
      Except.error (EventsError.internalException "ValidationException"
        "Cannot delete event bus default.") := by
  constructor
  · simp only [EventsProvider.create_event_bus, EventsProvider.get_event_bus]
    rw [lookup_dictInsert_self]
  · exact delete_default_eq_validation _ r'

/-- Claim C7: name extraction returns "default" for an absent or empty
input, and otherwise the substring after the last '/', so a full ARN yields
its trailing segment and a bare slash-free name passes through unchanged. -/
theorem extract_event_bus_name_spec (s : String) (h : s ≠ "") :
    extract_event_bus_name none = "default" ∧
    extract_event_bus_name (some "") = "default" ∧
    extract_event_bus_name (some "arn:aws:events:us-east-1:123:event-bus/my-bus") =
      "my-bus" ∧
    extract_event_bus_name (some "my-bus") = "my-bus" ∧
    suffixAfterLastSlash s (extract_event_bus_name (some s)) := by
  refine ⟨rfl, rfl, by decide, by decide, ?_⟩
  have hx : extract_event_bus_name (some s) =
      String.mk ((pySplit '/' s.data).getLastD []) := by
    simp [extract_event_bus_name, h]
  obtain ⟨hmem, hdec⟩ := pySplit_getLastD_after_last '/' s.data
  rw [hx]
  constructor
  · exact hmem
  · rcases hdec with heq | ⟨pre, hpre⟩
    · left
      rw [heq]
    · exact Or.inr ⟨pre, hpre⟩

/-- Witness for C7 at a concrete input. -/
theorem extract_event_bus_name_spec_witness :
    ("my-bus" : String) ≠ "" ∧
    (extract_event_bus_name none = "default" ∧
     extract_event_bus_name (some "") = "default" ∧
     extract_event_bus_name (some "arn:aws:events:us-east-1:123:event-bus/my-bus") =
       "my-bus" ∧
     extract_event_bus_name (some "my-bus") = "my-bus" ∧
     suffixAfterLastSlash "my-bus" (extract_event_bus_name (some "my-bus"))) :=
  ⟨by decide, extract_event_bus_name_spec "my-bus" (by decide)⟩

/-- Lookups at a key no create in the batch writes to are untouched by the
whole batch. -/
theorem create_all_lookup_frame (ps : List (String × String × String))
    (st : EventsProvider) (k : String)
    (hk : k ∉ ps.map (fun p => get_event_bus_key p.1 p.2.1)) :
    (create_all st ps).event_buses.lookup k = st.event_buses.lookup k := by
  induction ps generalizing st with
  | nil => rfl
  | cons p ps ih =>
    simp only [List.map_cons, List.mem_cons, not_or] at hk
    have hstep : ((st.create_event_bus p.1 p.2.1 p.2.2).2).event_buses.lookup k =
        st.event_buses.lookup k :=
      lookup_dictInsert_ne _ _ hk.1 _ _
    calc (create_all st (p :: ps)).event_buses.lookup k
        = (create_all ((st.create_event_bus p.1 p.2.1 p.2.2).2) ps).event_buses.lookup k := rfl
      _ = ((st.create_event_bus p.1 p.2.1 p.2.2).2).event_buses.lookup k := ih _ hk.2
      _ = st.event_buses.lookup k := hstep

/-- Claim C5 (counterexample to the claim as stated): the pairs
`("a-b", "c")` and `("a", "b-c")` are distinct, yet both concatenate to the
composite key `"a-b-c"`, so the second create overwrites the first: the
lookup of `("a-b", "c")` afterwards returns the bus created for
`("a", "b-c")` (name `"a"`), not the bus created for `("a-b", "c")`. -/
theorem distinct_pairs_interfere_counterexample :
    (("a-b", "c") : String × String) ≠ ("a", "b-c") ∧
    (create_all EventsProvider.init
        [("a-b", "c", "111111111111"), ("a", "b-c", "111111111111")]).get_event_bus
        "a-b" "c" =
      Except.ok { name := "a", arn := "arn:aws:events:b-c:111111111111:event-bus/a" } ∧
    ({ name := "a", arn := "arn:aws:events:b-c:111111111111:event-bus/a" } : EventBus).name ≠
      "a-b" := by
  refine ⟨by decide, by decide, by decide⟩

/-- Claim C5 as amended: a batch of creates whose composite keys
`name ++ "-" ++ region` are pairwise distinct leaves every created bus
independently lookupable, each lookup returning the bus built for that
triple.  (Distinctness of the `(name, region)` pairs alone is not enough:
the key is built by string concatenation, so distinct pairs can collide.) -/
theorem create_all_distinct_keys_lookupable (st : EventsProvider)
    (ps : List (String × String × String))
    (hnd : (ps.map (fun p => get_event_bus_key p.1 p.2.1)).Nodup) :
    ∀ p ∈ ps, (create_all st ps).get_event_bus p.1 p.2.1 =
      Except.ok { name := p.1, arn := get_event_bus_arn p.1 p.2.1 p.2.2 } := by
  induction ps generalizing st with
  | nil => intro p hp; cases hp
  | cons q ps ih =>
    simp only [List.map_cons, List.nodup_cons] at hnd
    intro p hp
    rcases List.mem_cons.mp hp with hpq | hpmem
    · subst hpq
      have hframe := create_all_lookup_frame ps
        ((st.create_event_bus p.1 p.2.1 p.2.2).2) (get_event_bus_key p.1 p.2.1) hnd.1
      have hself : ((st.create_event_bus p.1 p.2.1 p.2.2).2).event_buses.lookup
          (get_event_bus_key p.1 p.2.1) =
          some { name := p.1, arn := get_event_bus_arn p.1 p.2.1 p.2.2 } :=
        lookup_dictInsert_self _ _ _
      show (create_all ((st.create_event_bus p.1 p.2.1 p.2.2).2) ps).get_event_bus
          p.1 p.2.1 = _
      simp only [EventsProvider.get_event_bus]
      rw [hframe, hself]
    · exact ih ((st.create_event_bus q.1 q.2.1 q.2.2).2) hnd.2 p hpmem

/-- Witness for the amended C5 at a concrete input. -/
theorem create_all_distinct_keys_lookupable_witness :
    ((([("bus1", "us-east-1", "111111111111"), ("bus2", "eu-west-1", "222222222222")] :
        List (String × String × String)).map
          (fun p => get_event_bus_key p.1 p.2.1)).Nodup) ∧
    (create_all EventsProvider.init
        [("bus1", "us-east-1", "111111111111"), ("bus2", "eu-west-1", "222222222222")]).get_event_bus
        "bus1" "us-east-1" =
      Except.ok { name := "bus1", arn := get_event_bus_arn "bus1" "us-east-1" "111111111111" } :=
  ⟨by decide,
   create_all_distinct_keys_lookupable EventsProvider.init
     [("bus1", "us-east-1", "111111111111"), ("bus2", "eu-west-1", "222222222222")]
     (by decide) ("bus1", "us-east-1", "111111111111") (by decide)⟩

/-- Claim C9: a Rule built without an explicit state argument starts
ENABLED; Enable twice leaves ENABLED; Disable then Enable yields ENABLED;
and enable/disable change no field but `state`. -/
theorem rule_state_idempotence_and_default (n : String)
    (d ra : Option String) (r : Rule) :
    ({ name := n, description := d, role_arn := ra } : Rule).state = RuleState.ENABLED ∧
    r.enable.enable.state = RuleState.ENABLED ∧
    r.disable.enable.state = RuleState.ENABLED ∧
    r.enable.name = r.name ∧ r.enable.description = r.description ∧
    r.enable.role_arn = r.role_arn ∧
    r.disable.name = r.name ∧ r.disable.description = r.description ∧
    r.disable.role_arn = r.role_arn := by
  exact ⟨rfl, rfl, rfl, rfl, rfl, rfl, rfl, rfl, rfl⟩
